import Mathlib

/-!
Verification of `tapas-dl.py` (Tapas-Comic-Downloader).

The Python source is shallowly embedded: its pure helpers (`lead0`,
`check_path`, `get_series_id`, `parse_comic_images`, `parse_novel_text`)
become Lean functions over a faithful model of the Python string
primitives they use (`str.split`, `str.startswith`, truthiness, `or`),
and the orchestrating main loop becomes explicit state passing over a
filesystem model plus a log of network fetches, with uncaught Python
exceptions modelled by `Except.error`.
-/

deriving instance DecidableEq for Except

namespace TapasDl

/-! ### Python string primitives -/

/-- Python `s.startswith(pre)`. -/
def pyStartsWith (s pre : String) : Bool :=
  pre.toList.isPrefixOf s.toList

/-- Fuelled worker for `pySplit`.  Each step consumes at least one input
character and one unit of fuel, so fuel `s.length` is always enough and the
fuel-exhaustion branch is unreachable in `pySplit`. -/
def pySplitAux (sep : List Char) : Nat → List Char → List Char → List (List Char)
  | _, acc, [] => [acc.reverse]
  | 0, acc, rest => [acc.reverse ++ rest]
  | fuel + 1, acc, c :: rest =>
    if sep.isPrefixOf (c :: rest) then
      acc.reverse :: pySplitAux sep fuel [] ((c :: rest).drop sep.length)
    else
      pySplitAux sep fuel (c :: acc) rest

/-- Python `s.split(sep)` for a non-empty separator: split at each
non-overlapping occurrence of `sep`, scanning left to right, keeping empty
chunks.  The result is never the empty list. -/
def pySplit (sep s : String) : List String :=
  (pySplitAux sep.toList s.toList.length [] s.toList).map String.mk

/-- Python truthiness of an optional string (`None` and `""` are falsy). -/
def pyTruthy : Option String → Bool
  | none => false
  | some s => s != ""

/-- Python `a or b` on optional strings. -/
def pyOr (a b : Option String) : Option String :=
  if pyTruthy a then a else b

/-- `src.split("?")[0]` — strip a query-string suffix from a URL. -/
def stripQuery (s : String) : String :=
  (pySplit "?" s).headD ""

/-- `img_url.split(".")[-1]` — the extension guessed from a URL. -/
def ext_of (img_url : String) : String :=
  (pySplit "." img_url).getLastD ""

/-! ### Pure helpers of the source -/

/-- `lead0(num, max)` — `str(num).zfill(len(str(max)))`. -/
def lead0 (num max : Nat) : String :=
  String.mk
    (List.replicate ((Nat.repr max).length - (Nat.repr num).length) '0'
      ++ (Nat.repr num).toList)

/-- The characters removed by `check_path` only under `fat=True`
(option `--restrict-characters`). -/
def evil_fat : List Char :=
  ['?', '<', '>', '\\', ':', '*', '|', '"', '^']

/-- `check_path(path, slash, fat)` — drop every character of `path` that
occurs in the evil-character list. -/
def check_path (path : String) (slash fat : Bool) : String :=
  let evil_chars := (if slash then ['/'] else []) ++ (if fat then evil_fat else [])
  String.mk (path.toList.filter (fun c => !(evil_chars.contains c)))

/-- `get_series_id(url_or_name)`.  A Python `IndexError` (input starting with
`"http"` but containing no `"/series/"`) is modelled as `Except.error`. -/
def get_series_id (url_or_name : String) : Except String String :=
  if pyStartsWith url_or_name "http" then
    match pySplit "/series/" url_or_name with
    | _ :: second :: _ => Except.ok ((pySplit "/" second).headD "")
    | _ => Except.error "IndexError: list index out of range"
  else
    Except.ok url_or_name

/-! ### Data model -/

/-- An `img.content__img` element of the episode page: its `src` and
`data-src` attributes (absent attributes are `none`). -/
structure ImgTag where
  src : Option String
  dataSrc : Option String
deriving DecidableEq, Repr

/-- The parts of a fetched episode document the program inspects: the
`img.content__img` elements and the `article.viewer__body p` texts, both in
document order. -/
structure EpisodeDoc where
  imgs : List ImgTag
  paras : List String
deriving DecidableEq, Repr

/-- One entry of `series["episodes"]["entries"]`. -/
structure EpisodeMeta where
  id : Nat
  title : String
deriving DecidableEq, Repr

/-- The series object returned by `fetch_series`. -/
structure SeriesData where
  title : String
  creatorName : String
  episodes : List EpisodeMeta
deriving DecidableEq, Repr

/-- The network oracle: `seriesOf` models `fetch_series` (errors are the
exceptions the `try` block catches), `episodeOf` models
`fetch_episode_content` followed by HTML parsing into an `EpisodeDoc`
(errors are uncaught exceptions), `imageBytes` models `s.get(url).content`. -/
structure Remote where
  seriesOf : String → Except String SeriesData
  episodeOf : Nat → Except String EpisodeDoc
  imageBytes : String → String

/-- Filesystem model: a set of directories and an association list of file
contents (later writes shadow earlier ones). -/
structure FS where
  dirs : List String
  files : List (String × String)
deriving DecidableEq, Repr

def FS.dirExists (fs : FS) (p : String) : Bool :=
  fs.dirs.contains p

def FS.readFile (fs : FS) (p : String) : Option String :=
  fs.files.lookup p

def FS.fileExists (fs : FS) (p : String) : Bool :=
  (fs.files.lookup p).isSome

def FS.mkdir (fs : FS) (p : String) : FS :=
  { fs with dirs := p :: fs.dirs }

def FS.write (fs : FS) (p c : String) : FS :=
  { fs with files := (p, c) :: fs.files }

/-- One network access performed by the program. -/
inductive Fetch where
  | seriesMeta (seriesId : String)
  | episode (epId : Nat)
  | image (url : String)
deriving DecidableEq, Repr

/-- The command-line options the core reads, plus the resolved base path. -/
structure Config where
  force : Bool
  restrict_characters : Bool
  basePath : String
deriving DecidableEq, Repr

/-! ### Parsing and classification -/

/-- `parse_comic_images(html)`: for each content image take `src` or (Python
`or`) `data-src`; if truthy, keep it with the query string stripped. -/
def parse_comic_images (doc : EpisodeDoc) : List String :=
  doc.imgs.filterMap (fun img =>
    match pyOr img.src img.dataSrc with
    | some s => if s != "" then some (stripQuery s) else none
    | none => none)

/-- `parse_novel_text(html)`: the truthy paragraph texts joined by a blank
line. -/
def parse_novel_text (doc : EpisodeDoc) : String :=
  String.intercalate "\n\n" (doc.paras.filter (fun txt => txt != ""))

/-- The classification outcome of one episode. -/
inductive ContentPayload where
  | imageGallery (urls : List String)
  | prose (text : String)
deriving DecidableEq, Repr

/-- The `if imgs: ... else: ...` branch of the main loop as a pure
classification function. -/
def classify (doc : EpisodeDoc) : ContentPayload :=
  let imgs := parse_comic_images doc
  if imgs = [] then ContentPayload.prose (parse_novel_text doc)
  else ContentPayload.imageGallery imgs

/-! ### The main loop -/

/-- The image filename computed in the gallery branch. -/
def image_fname (restrict : Bool) (ep_idx nEps img_idx nImgs : Nat)
    (ep_title ext : String) : String :=
  check_path
    (lead0 ep_idx nEps ++ " - " ++ lead0 img_idx nImgs ++ " - " ++ ep_title ++ "." ++ ext)
    true restrict

/-- The prose filename computed in the novel branch. -/
def prose_fname (restrict : Bool) (ep_idx nEps : Nat) (ep_title : String) : String :=
  check_path (lead0 ep_idx nEps ++ " - " ++ ep_title ++ ".txt") true restrict

/-- `savePath = basePath / check_path(f"{name} [{seriesName}]", fat=...)`. -/
def savePathOf (cfg : Config) (title seriesName : String) : String :=
  cfg.basePath ++ "/" ++ check_path (title ++ " [" ++ seriesName ++ "]") true cfg.restrict_characters

/-- The inner image loop: for each image URL (1-based `img_idx`), skip if the
file exists, otherwise fetch and write its bytes. -/
def saveImages (remote : Remote) (restrict : Bool) (savePath : String)
    (ep_idx nEps : Nat) (ep_title : String) (nImgs : Nat) :
    Nat → List String → FS → List Fetch → FS × List Fetch
  | _, [], fs, log => (fs, log)
  | img_idx, img_url :: rest, fs, log =>
    let fpath := savePath ++ "/" ++ image_fname restrict ep_idx nEps img_idx nImgs ep_title (ext_of img_url)
    if fs.fileExists fpath then
      saveImages remote restrict savePath ep_idx nEps ep_title nImgs (img_idx + 1) rest fs log
    else
      saveImages remote restrict savePath ep_idx nEps ep_title nImgs (img_idx + 1) rest
        (fs.write fpath (remote.imageBytes img_url)) (log ++ [Fetch.image img_url])

/-- The episode loop (1-based `ep_idx`).  A failing episode fetch is an
uncaught exception: `Except.error`. -/
def processEpisodes (remote : Remote) (restrict : Bool) (savePath : String) (nEps : Nat) :
    Nat → List EpisodeMeta → FS → List Fetch → Except String (FS × List Fetch)
  | _, [], fs, log => Except.ok (fs, log)
  | ep_idx, ep :: rest, fs, log =>
    match remote.episodeOf ep.id with
    | Except.error e => Except.error e
    | Except.ok doc =>
      let log := log ++ [Fetch.episode ep.id]
      match classify doc with
      | ContentPayload.imageGallery imgs =>
        let p := saveImages remote restrict savePath ep_idx nEps ep.title imgs.length 1 imgs fs log
        processEpisodes remote restrict savePath nEps (ep_idx + 1) rest p.1 p.2
      | ContentPayload.prose text =>
        processEpisodes remote restrict savePath nEps (ep_idx + 1) rest
          (fs.write (savePath ++ "/" ++ prose_fname restrict ep_idx nEps ep.title) text) log

/-- One iteration of the outer `for url in args.url` loop: resolve the id
(uncaught `IndexError` possible), fetch the series metadata (errors caught:
the series is skipped), gate on the destination directory, then run the
episode loop. -/
def runSeries (cfg : Config) (remote : Remote) (fs : FS) (input : String) :
    Except String (FS × List Fetch) :=
  match get_series_id input with
  | Except.error e => Except.error e
  | Except.ok seriesName =>
    match remote.seriesOf seriesName with
    | Except.error _ => Except.ok (fs, [Fetch.seriesMeta seriesName])
    | Except.ok series =>
      let savePath := savePathOf cfg series.title seriesName
      let log := [Fetch.seriesMeta seriesName]
      if fs.dirExists savePath = false then
        processEpisodes remote cfg.restrict_characters savePath series.episodes.length
          1 series.episodes (fs.mkdir savePath) log
      else if cfg.force = false then
        Except.ok (fs, log)
      else
        processEpisodes remote cfg.restrict_characters savePath series.episodes.length
          1 series.episodes fs log

/-- The whole program: the input series are processed sequentially; an
uncaught exception anywhere aborts the entire run. -/
def runAll (cfg : Config) (remote : Remote) : FS → List String → Except String (FS × List Fetch)
  | fs, [] => Except.ok (fs, [])
  | fs, input :: rest =>
    match runSeries cfg remote fs input with
    | Except.error e => Except.error e
    | Except.ok (fs', log) =>
      match runAll cfg remote fs' rest with
      | Except.error e => Except.error e
      | Except.ok (fs'', log') => Except.ok (fs'', log ++ log')

/-- All image files of a gallery segment already exist on disk (the paths are
the ones `saveImages` would compute, starting at index `img_idx`). -/
def allExist (fs : FS) (restrict : Bool) (savePath : String) (ep_idx nEps : Nat)
    (ep_title : String) (nImgs : Nat) : Nat → List String → Bool
  | _, [] => true
  | img_idx, img_url :: rest =>
    fs.fileExists (savePath ++ "/" ++ image_fname restrict ep_idx nEps img_idx nImgs ep_title (ext_of img_url))
      && allExist fs restrict savePath ep_idx nEps ep_title nImgs (img_idx + 1) rest

/-! ### Concrete fixtures used by counterexamples and witnesses -/

/-- The empty filesystem. -/
def fs0 : FS := ⟨[], []⟩

/-- Options with every flag off and base path `"o"`. -/
def cfg0 : Config := ⟨false, false, "o"⟩

/-- Two series `"1"` and `"2"`; fetching the content of episode 11 (the only
episode of series `"1"`) fails, everything else succeeds. -/
def remoteC1 : Remote where
  seriesOf := fun sid =>
    if sid = "1" then Except.ok ⟨"A", "Au", [⟨11, "E1"⟩]⟩
    else if sid = "2" then Except.ok ⟨"B", "Bu", [⟨21, "E2"⟩]⟩
    else Except.error "FetchError"
  episodeOf := fun eid =>
    if eid = 11 then Except.error "EpisodeFetchError"
    else Except.ok ⟨[], ["hello"]⟩
  imageBytes := fun _ => "IMG"

/-- One series `"7"` whose single episode is a one-image gallery. -/
def remoteC2 : Remote where
  seriesOf := fun sid =>
    if sid = "7" then Except.ok ⟨"S", "A", [⟨5, "T"⟩]⟩ else Except.error "FetchError"
  episodeOf := fun eid =>
    if eid = 5 then Except.ok ⟨[⟨some "http://a/b.jpg", none⟩], []⟩ else Except.error "E"
  imageBytes := fun _ => "IMG"

/-- One series `"7"` whose single episode is prose. -/
def remoteC9 : Remote where
  seriesOf := fun sid =>
    if sid = "7" then Except.ok ⟨"S", "A", [⟨5, "T"⟩]⟩ else Except.error "FetchError"
  episodeOf := fun eid =>
    if eid = 5 then Except.ok ⟨[], ["hello"]⟩ else Except.error "E"
  imageBytes := fun _ => "IMG"

/-- The filesystem left behind by running `remoteC9`'s series once. -/
def fsAfterC9 : FS := ⟨["o/S [7]"], [("o/S [7]/1 - T.txt", "hello")]⟩

/-- A document holding both one image and one paragraph. -/
def docC4 : EpisodeDoc := ⟨[⟨some "u.jpg", none⟩], ["p"]⟩

/-- A remote whose only use is serving image bytes. -/
def remoteC6 : Remote where
  seriesOf := fun _ => Except.error "E"
  episodeOf := fun _ => Except.error "E"
  imageBytes := fun _ => "BYTES"

/-- One series `"7"` with a single prose episode (C5 fixture). -/
def remoteC5 : Remote where
  seriesOf := fun sid =>
    if sid = "7" then Except.ok ⟨"S", "A", [⟨5, "T"⟩]⟩ else Except.error "FetchError"
  episodeOf := fun eid =>
    if eid = 5 then Except.ok ⟨[], ["hello"]⟩ else Except.error "E"
  imageBytes := fun _ => "IMG"

/-- A filesystem in which the destination directory of `remoteC5`'s series
already exists. -/
def fsDirC5 : FS := ⟨["o/S [7]"], []⟩

/-- A remote whose episode 3 is prose with an empty middle paragraph. -/
def remoteC10 : Remote where
  seriesOf := fun _ => Except.error "E"
  episodeOf := fun eid =>
    if eid = 3 then Except.ok ⟨[], ["a", "", "b"]⟩ else Except.error "E"
  imageBytes := fun _ => ""

/-! ### Helper lemmas: strings -/

lemma toList_mk (l : List Char) : (String.mk l).toList = l := rfl

lemma length_mk (l : List Char) : (String.mk l).length = l.length := rfl

lemma mk_toList (s : String) : String.mk s.toList = s := rfl

lemma toList_append (s t : String) : (s ++ t).toList = s.toList ++ t.toList := by
  cases s
  cases t
  rfl

/-! ### Helper lemmas: `check_path` -/

lemma check_path_toList (s : String) (slash fat : Bool) :
    (check_path s slash fat).toList =
      s.toList.filter
        (fun c => !(((if slash then ['/'] else []) ++ (if fat then evil_fat else [])).contains c)) :=
  rfl

lemma check_path_idem (s : String) (slash fat : Bool) :
    check_path (check_path s slash fat) slash fat = check_path s slash fat := by
  unfold check_path
  simp [List.filter_filter]

lemma check_path_count (s : String) (fat : Bool) (c : Char)
    (h1 : c ≠ '/') (h2 : fat = true → c ∉ evil_fat) :
    (check_path s true fat).toList.count c = s.toList.count c := by
  rw [check_path_toList]
  rw [List.count_filter]
  cases fat with
  | false => simp [h1]
  | true =>
    have h2' := h2 rfl
    simp only [evil_fat, List.mem_cons, List.not_mem_nil] at h2'
    simp [evil_fat, h1]
    tauto

lemma slash_not_mem_check_path (s : String) (fat : Bool) :
    '/' ∉ (check_path s true fat).toList := by
  rw [check_path_toList]
  intro h
  have := List.of_mem_filter h
  simp at this

lemma evil_not_mem_check_path (s : String) (c : Char) (hc : c ∈ evil_fat) :
    c ∉ (check_path s true true).toList := by
  rw [check_path_toList]
  intro h
  have := List.of_mem_filter h
  simp at this
  exact this.2 hc

lemma check_path_eq_self (s : String) (h : ∀ c ∈ s.toList, c ≠ '/') :
    check_path s true false = s := by
  unfold check_path
  simp only [if_pos, if_neg, Bool.false_eq_true, List.append_nil]
  rw [List.filter_eq_self.mpr]
  · exact mk_toList s
  · intro c hc
    simp [h c hc]

/-! ### Helper lemmas: decimal representation -/

lemma toDigitsCore_digits_len (n : Nat) : ∀ (f : Nat) (ds : List Char), n < f → 0 < n →
    (Nat.toDigitsCore 10 f n ds).length = (Nat.digits 10 n).length + ds.length := by
  induction n using Nat.strong_induction_on with
  | _ n ih =>
    intro f ds hf hn
    cases f with
    | zero => omega
    | succ f =>
      rw [Nat.toDigitsCore]
      by_cases h : n / 10 = 0
      · rw [if_pos h, Nat.digits_def' (b := 10) (by norm_num) hn, h, Nat.digits_zero]
        simp only [List.length_cons, List.length_nil]
        omega
      · rw [if_neg h]
        have hlt : n / 10 < n := Nat.div_lt_self hn (by norm_num)
        have hrec := ih (n / 10) hlt f (Nat.digitChar (n % 10) :: ds) (by omega)
          (Nat.pos_of_ne_zero h)
        rw [hrec, Nat.digits_def' (b := 10) (by norm_num) hn]
        simp
        omega

lemma repr_length_eq (n : Nat) (hn : 0 < n) :
    (Nat.repr n).length = (Nat.digits 10 n).length := by
  have h := toDigitsCore_digits_len n (n + 1) [] (by omega) hn
  show (Nat.toDigits 10 n).asString.length = _
  rw [Nat.toDigits]
  simpa [List.asString, String.length] using h

lemma repr_len_mono (m n : Nat) (hm : 0 < m) (hmn : m ≤ n) :
    (Nat.repr m).length ≤ (Nat.repr n).length := by
  rw [repr_length_eq m hm, repr_length_eq n (lt_of_lt_of_le hm hmn)]
  exact Nat.le_digits_len_le 10 m n hmn

lemma digitChar_ne_slash (k : Nat) (hk : k < 10) : Nat.digitChar k ≠ '/' := by
  interval_cases k <;> decide

lemma mem_toDigitsCore (f : Nat) : ∀ (n : Nat) (ds : List Char) (c : Char),
    c ∈ Nat.toDigitsCore 10 f n ds → c ∈ ds ∨ ∃ k, k < 10 ∧ c = Nat.digitChar k := by
  induction f with
  | zero =>
    intro n ds c h
    exact Or.inl h
  | succ f ih =>
    intro n ds c h
    rw [Nat.toDigitsCore] at h
    by_cases h10 : n / 10 = 0
    · rw [if_pos h10] at h
      rcases List.mem_cons.mp h with h' | h'
      · exact Or.inr ⟨n % 10, Nat.mod_lt n (by norm_num), h'⟩
      · exact Or.inl h'
    · rw [if_neg h10] at h
      rcases ih _ _ _ h with h' | h'
      · rcases List.mem_cons.mp h' with h'' | h''
        · exact Or.inr ⟨n % 10, Nat.mod_lt n (by norm_num), h''⟩
        · exact Or.inl h''
      · exact Or.inr h'

lemma repr_no_slash (n : Nat) : ∀ c ∈ (Nat.repr n).toList, c ≠ '/' := by
  intro c hc
  have hmem : c ∈ Nat.toDigitsCore 10 (n + 1) n [] := by
    simpa [Nat.repr, Nat.toDigits, List.asString] using hc
  rcases mem_toDigitsCore _ _ _ _ hmem with h | ⟨k, hk, rfl⟩
  · simp at h
  · exact digitChar_ne_slash k hk

/-! ### Helper lemmas: `lead0` -/

lemma lead0_toList (num max : Nat) :
    (lead0 num max).toList =
      List.replicate ((Nat.repr max).length - (Nat.repr num).length) '0'
        ++ (Nat.repr num).toList :=
  rfl

lemma lead0_length (i N : Nat) (h1 : 1 ≤ i) (h2 : i ≤ N) :
    (lead0 i N).length = (Nat.repr N).length := by
  have hmono := repr_len_mono i N h1 h2
  have : (lead0 i N).length =
      ((Nat.repr N).length - (Nat.repr i).length) + (Nat.repr i).length := by
    simp [lead0, length_mk]
  omega

lemma lead0_no_slash (num max : Nat) : ∀ c ∈ (lead0 num max).toList, c ≠ '/' := by
  intro c hc
  rw [lead0_toList] at hc
  rcases List.mem_append.mp hc with h | h
  · have := List.eq_of_mem_replicate h
    subst this
    decide
  · exact repr_no_slash num c h

/-! ### Helper lemmas: filesystem -/

lemma readFile_write (fs : FS) (p c q : String) :
    (fs.write p c).readFile q = if q = p then some c else fs.readFile q := by
  unfold FS.write FS.readFile
  by_cases h : q = p
  · subst h
    simp [List.lookup]
  · have hb : (q == p) = false := beq_eq_false_iff_ne.mpr h
    simp [List.lookup, hb, h]

lemma fileExists_write (fs : FS) (p c q : String) :
    (fs.write p c).fileExists q = (q = p || fs.fileExists q) := by
  unfold FS.fileExists
  have h := readFile_write fs p c q
  unfold FS.readFile at h
  rw [h]
  by_cases hq : q = p <;> simp [hq, FS.fileExists]

lemma dirs_write (fs : FS) (p c : String) : (fs.write p c).dirs = fs.dirs := rfl

lemma dirExists_mkdir_self (fs : FS) (p : String) : (fs.mkdir p).dirExists p = true := by
  simp [FS.mkdir, FS.dirExists]

/-! ### Helper lemmas: the image loop -/

lemma saveImages_dirs (remote : Remote) (restrict : Bool) (savePath : String)
    (ep_idx nEps : Nat) (ep_title : String) (nImgs : Nat) :
    ∀ (urls : List String) (img_idx : Nat) (fs : FS) (log : List Fetch),
      ((saveImages remote restrict savePath ep_idx nEps ep_title nImgs img_idx urls fs log).1).dirs
        = fs.dirs := by
  intro urls
  induction urls with
  | nil => intro img_idx fs log; rfl
  | cons u rest ih =>
    intro img_idx fs log
    rw [saveImages]
    by_cases h : fs.fileExists (savePath ++ "/" ++ image_fname restrict ep_idx nEps img_idx nImgs ep_title (ext_of u)) = true
    · rw [if_pos h]
      exact ih _ _ _
    · rw [if_neg h]
      rw [ih _ _ _]
      rfl

lemma saveImages_readFile_pres (remote : Remote) (restrict : Bool) (savePath : String)
    (ep_idx nEps : Nat) (ep_title : String) (nImgs : Nat) :
    ∀ (urls : List String) (img_idx : Nat) (fs : FS) (log : List Fetch) (p : String),
      fs.fileExists p = true →
      ((saveImages remote restrict savePath ep_idx nEps ep_title nImgs img_idx urls fs log).1).readFile p
        = fs.readFile p := by
  intro urls
  induction urls with
  | nil => intro img_idx fs log p _; rfl
  | cons u rest ih =>
    intro img_idx fs log p hp
    rw [saveImages]
    by_cases h : fs.fileExists (savePath ++ "/" ++ image_fname restrict ep_idx nEps img_idx nImgs ep_title (ext_of u)) = true
    · rw [if_pos h]
      exact ih _ _ _ _ hp
    · rw [if_neg h]
      have hne : p ≠ savePath ++ "/" ++ image_fname restrict ep_idx nEps img_idx nImgs ep_title (ext_of u) := by
        intro heq
        rw [heq] at hp
        exact h hp
      have hex : (fs.write (savePath ++ "/" ++ image_fname restrict ep_idx nEps img_idx nImgs ep_title (ext_of u)) (remote.imageBytes u)).fileExists p = true := by
        rw [fileExists_write]
        simp [hp]
      rw [ih _ _ _ _ hex, readFile_write, if_neg hne]

lemma saveImages_log_mem (remote : Remote) (restrict : Bool) (savePath : String)
    (ep_idx nEps : Nat) (ep_title : String) (nImgs : Nat) :
    ∀ (urls : List String) (img_idx : Nat) (fs : FS) (log : List Fetch) (l : Fetch),
      l ∈ log →
      l ∈ (saveImages remote restrict savePath ep_idx nEps ep_title nImgs img_idx urls fs log).2 := by
  intro urls
  induction urls with
  | nil => intro img_idx fs log l hl; exact hl
  | cons u rest ih =>
    intro img_idx fs log l hl
    rw [saveImages]
    by_cases h : fs.fileExists (savePath ++ "/" ++ image_fname restrict ep_idx nEps img_idx nImgs ep_title (ext_of u)) = true
    · rw [if_pos h]
      exact ih _ _ _ _ hl
    · rw [if_neg h]
      exact ih _ _ _ _ (List.mem_append_left _ hl)

lemma saveImages_allExist (remote : Remote) (restrict : Bool) (savePath : String)
    (ep_idx nEps : Nat) (ep_title : String) (nImgs : Nat) :
    ∀ (urls : List String) (img_idx : Nat) (fs : FS) (log : List Fetch),
      allExist fs restrict savePath ep_idx nEps ep_title nImgs img_idx urls = true →
      saveImages remote restrict savePath ep_idx nEps ep_title nImgs img_idx urls fs log = (fs, log) := by
  intro urls
  induction urls with
  | nil => intro img_idx fs log _; rfl
  | cons u rest ih =>
    intro img_idx fs log hall
    rw [allExist] at hall
    rw [Bool.and_eq_true] at hall
    rw [saveImages, if_pos hall.1]
    exact ih _ _ _ hall.2

/-! ### Helper lemmas: the episode loop -/

lemma processEpisodes_dirs (remote : Remote) (restrict : Bool) (savePath : String) (nEps : Nat) :
    ∀ (eps : List EpisodeMeta) (ep_idx : Nat) (fs fs' : FS) (log log' : List Fetch),
      processEpisodes remote restrict savePath nEps ep_idx eps fs log = Except.ok (fs', log') →
      fs'.dirs = fs.dirs := by
  intro eps
  induction eps with
  | nil =>
    intro ep_idx fs fs' log log' h
    rw [processEpisodes] at h
    cases h
    rfl
  | cons ep rest ih =>
    intro ep_idx fs fs' log log' h
    rw [processEpisodes] at h
    cases hdoc : remote.episodeOf ep.id with
    | error e => rw [hdoc] at h; cases h
    | ok doc =>
      rw [hdoc] at h
      cases hcl : classify doc with
      | imageGallery imgs =>
        simp only [hcl] at h
        have := ih _ _ _ _ _ h
        rw [this, saveImages_dirs]
      | prose text =>
        simp only [hcl] at h
        have := ih _ _ _ _ _ h
        rw [this, dirs_write]

/-! ### Claims -/

/-- Claim C7: for every input string, `check_path` removes `/` always, removes
each of `? < > \ : * | " ^` only when the restrict-characters option (`fat`)
is active, removes nothing else (character counts are preserved), and is
idempotent for a fixed option setting. -/
theorem C7_sanitizer_properties (s : String) (fat : Bool) :
    '/' ∉ (check_path s true fat).toList ∧
    (fat = true → ∀ c ∈ evil_fat, c ∉ (check_path s true fat).toList) ∧
    (∀ c : Char, c ≠ '/' → (fat = true → c ∉ evil_fat) →
      (check_path s true fat).toList.count c = s.toList.count c) ∧
    check_path (check_path s true fat) true fat = check_path s true fat := by
  refine ⟨slash_not_mem_check_path s fat, ?_, ?_, check_path_idem s true fat⟩
  · rintro rfl c hc
    exact evil_not_mem_check_path s c hc
  · intro c h1 h2
    exact check_path_count s fat c h1 h2

/-- Witness for C7 at a concrete string. -/
theorem C7_witness :
    (check_path "a/b?c" true true).toList.count 'a' = "a/b?c".toList.count 'a' ∧
    check_path (check_path "a/b?c" true true) true true = check_path "a/b?c" true true :=
  ⟨(C7_sanitizer_properties "a/b?c" true).2.2.1 'a' (by decide) (fun _ => by decide),
   (C7_sanitizer_properties "a/b?c" true).2.2.2⟩

/-- Claim C8: for a collection of `N` items and a 1-based index `i ≤ N`, the
label `lead0 i N` is the decimal representation of `i` left-padded with
zeros to exactly the number of decimal digits of `N` (the length of `N`'s
decimal representation). -/
theorem C8_indexer_padding (i N : Nat) (h1 : 1 ≤ i) (h2 : i ≤ N) :
    (lead0 i N).length = (Nat.repr N).length ∧
    (lead0 i N).toList =
      List.replicate ((Nat.repr N).length - (Nat.repr i).length) '0'
        ++ (Nat.repr i).toList :=
  ⟨lead0_length i N h1 h2, lead0_toList i N⟩

/-- Witness for C8: `N = 125`, `i = 7` gives `"007"`. -/
theorem C8_witness :
    lead0 7 125 = "007" ∧
    ((lead0 7 125).length = (Nat.repr 125).length ∧
     (lead0 7 125).toList =
       List.replicate ((Nat.repr 125).length - (Nat.repr 7).length) '0'
         ++ (Nat.repr 7).toList) :=
  ⟨by decide, C8_indexer_padding 7 125 (by decide) (by decide)⟩

/-- Counterexample for C3: the claim says the resolver extracts the segment
after `/series/` whenever the input CONTAINS that substring, and otherwise
returns the input unchanged, failing only on a non-string.  The code instead
branches on `startswith("http")`: an input containing `/series/` that does
not start with `http` is returned unchanged (not resolved to `"Y"`), and a
string input starting with `http` without `/series/` raises `IndexError`. -/
theorem C3_counterexample :
    get_series_id "x/series/Y/z" = Except.ok "x/series/Y/z" ∧
    "x/series/Y/z" ≠ "Y" ∧
    get_series_id "http://tapas.io/about" =
      Except.error "IndexError: list index out of range" :=
  ⟨by decide, by decide, by decide⟩

/-- Claim C3 (amended): the resolver branches on whether the input starts
with `"http"`: if it does not, the input is returned unchanged; if it does,
the segment after the first `/series/` up to the next `/` is returned, and
an input starting with `"http"` but lacking `/series/` fails with an
`IndexError`.  The spec's two examples hold. -/
theorem C3_resolver_amended (s : String) (h : pyStartsWith s "http" = false) :
    get_series_id s = Except.ok s ∧
    get_series_id "https://tapas.io/series/Erma/info" = Except.ok "Erma" ∧
    get_series_id "Erma" = Except.ok "Erma" := by
  refine ⟨?_, by decide, by decide⟩
  unfold get_series_id
  simp [h]

/-- Witness for C3 at a concrete bare identifier. -/
theorem C3_witness : get_series_id "Erma" = Except.ok "Erma" :=
  (C3_resolver_amended "Erma" (by decide)).1

/-- Claim C4: classification is mutually exclusive and image-first: with at
least one extracted image URL the episode is an `ImageGallery` and the
paragraph text is discarded (the result does not depend on the paragraphs);
with zero images it is `Prose`; and a document with zero images and zero
paragraphs yields the empty `Prose` payload, persisted as an empty text
file, never an error. -/
theorem C4_classification (doc : EpisodeDoc) :
    (parse_comic_images doc ≠ [] →
      classify doc = ContentPayload.imageGallery (parse_comic_images doc) ∧
      ∀ ps : List String, classify ⟨doc.imgs, ps⟩ = classify doc) ∧
    (parse_comic_images doc = [] →
      classify doc = ContentPayload.prose (parse_novel_text doc)) ∧
    (doc.imgs = [] → doc.paras = [] → classify doc = ContentPayload.prose "") ∧
    (∀ (remote : Remote) (restrict : Bool) (sp : String) (nEps i : Nat)
        (ep : EpisodeMeta) (fs : FS) (log : List Fetch),
      remote.episodeOf ep.id = Except.ok ⟨[], []⟩ →
      processEpisodes remote restrict sp nEps i [ep] fs log =
        Except.ok (fs.write (sp ++ "/" ++ prose_fname restrict i nEps ep.title) "",
          log ++ [Fetch.episode ep.id])) := by
  refine ⟨?_, ?_, ?_, ?_⟩
  · intro h
    constructor
    · simp [classify, h]
    · intro ps
      have himg : parse_comic_images ⟨doc.imgs, ps⟩ = parse_comic_images doc := rfl
      simp [classify, himg, h]
  · intro h
    simp [classify, h]
  · intro h1 h2
    have him : parse_comic_images doc = [] := by
      simp [parse_comic_images, h1]
    have hp : parse_novel_text doc = "" := by
      simp [parse_novel_text, h2]
      rfl
    simp [classify, him, hp]
  · intro remote restrict sp nEps i ep fs log hdoc
    rw [processEpisodes, hdoc]
    have hcl : classify ⟨[], []⟩ = ContentPayload.prose "" := by decide
    simp only [hcl]
    rw [processEpisodes]

/-- Witness for C4 at a document holding both an image and a paragraph. -/
theorem C4_witness :
    classify docC4 = ContentPayload.imageGallery (parse_comic_images docC4) ∧
    parse_comic_images docC4 = ["u.jpg"] :=
  ⟨((C4_classification docC4).1 (by decide)).1, by decide⟩

/-- Claim C10: for an episode classified as prose, the persisted text file's
content is exactly the non-empty paragraph texts, in document order, joined
by the two-character separator `"\n\n"`, with empty paragraphs omitted. -/
theorem C10_prose_content (remote : Remote) (restrict : Bool) (sp : String)
    (nEps i : Nat) (ep : EpisodeMeta) (fs : FS) (log : List Fetch) (doc : EpisodeDoc)
    (hdoc : remote.episodeOf ep.id = Except.ok doc)
    (himgs : parse_comic_images doc = []) :
    ∃ fs' : FS,
      processEpisodes remote restrict sp nEps i [ep] fs log =
        Except.ok (fs', log ++ [Fetch.episode ep.id]) ∧
      fs'.readFile (sp ++ "/" ++ prose_fname restrict i nEps ep.title) =
        some (String.intercalate "\n\n" (doc.paras.filter (fun t => t != ""))) := by
  refine ⟨fs.write (sp ++ "/" ++ prose_fname restrict i nEps ep.title) (parse_novel_text doc),
    ?_, ?_⟩
  · rw [processEpisodes, hdoc]
    have hcl : classify doc = ContentPayload.prose (parse_novel_text doc) := by
      simp [classify, himgs]
    simp only [hcl]
    rw [processEpisodes]
  · rw [readFile_write, if_pos rfl]
    rfl

/-- Witness for C10: paragraphs `["a", "", "b"]` persist as `"a\n\nb"`. -/
theorem C10_witness :
    (∃ fs' : FS,
      processEpisodes remoteC10 false "d" 1 1 [⟨3, "T"⟩] fs0 [] =
        Except.ok (fs', [] ++ [Fetch.episode 3]) ∧
      fs'.readFile ("d" ++ "/" ++ prose_fname false 1 1 "T") =
        some (String.intercalate "\n\n" (["a", "", "b"].filter (fun t => t != "")))) ∧
    String.intercalate "\n\n" (["a", "", "b"].filter (fun t => t != "")) = "a\n\nb" :=
  ⟨C10_prose_content remoteC10 false "d" 1 1 ⟨3, "T"⟩ fs0 [] ⟨[], ["a", "", "b"]⟩
      (by decide) (by decide), by decide⟩

lemma no_slash_append (s t : String)
    (hs : ∀ c ∈ s.toList, c ≠ '/') (ht : ∀ c ∈ t.toList, c ≠ '/') :
    ∀ c ∈ (s ++ t).toList, c ≠ '/' := by
  intro c hc
  rw [toList_append] at hc
  rcases List.mem_append.mp hc with h | h
  · exact hs c h
  · exact ht c h

/-- Counterexample for C2: the claim says image files are named
`<epIdx>-<imgIdx>-<title>.<ext>` with the components joined by a single `-`
and no other separator characters.  The code joins them with `" - "`
(space, hyphen, space): the file persisted for a one-image episode is
`1 - 1 - T.jpg`, not `1-1-T.jpg`. -/
theorem C2_counterexample :
    runSeries cfg0 remoteC2 fs0 "7" =
      Except.ok (⟨["o/S [7]"], [("o/S [7]/1 - 1 - T.jpg", "IMG")]⟩,
        [Fetch.seriesMeta "7", Fetch.episode 5, Fetch.image "http://a/b.jpg"]) ∧
    ("1 - 1 - T.jpg" : String) ≠ "1-1-T.jpg" :=
  ⟨by decide, by decide⟩

/-- Claim C2 (amended): image files are named
`<epIdx> - <imgIdx> - <title>.<ext>` and prose files `<epIdx> - <title>.txt`
(components joined by space-hyphen-space), the indices zero-padded to the
width of the respective collection's maximum index, the whole name then
passed through the path sanitizer (shown here with the restrict option off
and `/`-free title and extension, where the sanitizer is the identity). -/
theorem C2_filenames_amended (e N i M : Nat) (t x : String)
    (he : 1 ≤ e) (heN : e ≤ N) (hi : 1 ≤ i) (hiM : i ≤ M)
    (ht : ∀ c ∈ t.toList, c ≠ '/') (hx : ∀ c ∈ x.toList, c ≠ '/') :
    image_fname false e N i M t x =
      lead0 e N ++ " - " ++ lead0 i M ++ " - " ++ t ++ "." ++ x ∧
    prose_fname false e N t = lead0 e N ++ " - " ++ t ++ ".txt" ∧
    (lead0 e N).length = (Nat.repr N).length ∧
    (lead0 i M).length = (Nat.repr M).length := by
  have hsep : ∀ c ∈ (" - " : String).toList, c ≠ '/' := by decide
  have hdot : ∀ c ∈ ("." : String).toList, c ≠ '/' := by decide
  have htxt : ∀ c ∈ (".txt" : String).toList, c ≠ '/' := by decide
  refine ⟨?_, ?_, lead0_length e N he heN, lead0_length i M hi hiM⟩
  · unfold image_fname
    apply check_path_eq_self
    exact no_slash_append _ _
      (no_slash_append _ _
        (no_slash_append _ _
          (no_slash_append _ _
            (no_slash_append _ _
              (no_slash_append _ _ (lead0_no_slash e N) hsep)
              (lead0_no_slash i M))
            hsep)
          ht)
        hdot)
      hx
  · unfold prose_fname
    apply check_path_eq_self
    exact no_slash_append _ _
      (no_slash_append _ _
        (no_slash_append _ _ (lead0_no_slash e N) hsep)
        ht)
      htxt

/-- Witness for C2 (amended) at concrete values. -/
theorem C2_witness :
    image_fname false 2 10 3 12 "T" "jpg" =
      lead0 2 10 ++ " - " ++ lead0 3 12 ++ " - " ++ "T" ++ "." ++ "jpg" ∧
    image_fname false 2 10 3 12 "T" "jpg" = "02 - 03 - T.jpg" :=
  ⟨(C2_filenames_amended 2 10 3 12 "T" "jpg" (by decide) (by decide) (by decide)
      (by decide) (by decide) (by decide)).1, by decide⟩

/-- Claim C5: the series-level gate.  When the destination directory exists
and force is off, the series is skipped before the episode loop with the
filesystem unchanged and no network access beyond the metadata query; when
it exists and force is on, the episode loop runs on the unchanged
filesystem; when it does not exist, it is created and the episode loop
runs. -/
theorem C5_directory_gate (cfg : Config) (remote : Remote) (fs : FS) (input sid : String)
    (series : SeriesData)
    (hsid : get_series_id input = Except.ok sid)
    (hser : remote.seriesOf sid = Except.ok series) :
    (fs.dirExists (savePathOf cfg series.title sid) = true → cfg.force = false →
      runSeries cfg remote fs input = Except.ok (fs, [Fetch.seriesMeta sid])) ∧
    (fs.dirExists (savePathOf cfg series.title sid) = true → cfg.force = true →
      runSeries cfg remote fs input =
        processEpisodes remote cfg.restrict_characters (savePathOf cfg series.title sid)
          series.episodes.length 1 series.episodes fs [Fetch.seriesMeta sid]) ∧
    (fs.dirExists (savePathOf cfg series.title sid) = false →
      runSeries cfg remote fs input =
        processEpisodes remote cfg.restrict_characters (savePathOf cfg series.title sid)
          series.episodes.length 1 series.episodes
          (fs.mkdir (savePathOf cfg series.title sid)) [Fetch.seriesMeta sid] ∧
      (fs.mkdir (savePathOf cfg series.title sid)).dirExists
          (savePathOf cfg series.title sid) = true) := by
  refine ⟨?_, ?_, ?_⟩
  · intro h1 h2
    rw [runSeries, hsid]
    simp only [hser]
    simp [h1, h2]
  · intro h1 h2
    rw [runSeries, hsid]
    simp only [hser]
    simp [h1, h2]
  · intro h1
    refine ⟨?_, dirExists_mkdir_self fs _⟩
    rw [runSeries, hsid]
    simp only [hser]
    simp [h1]

/-- Witness for C5: the skip branch at a concrete existing directory. -/
theorem C5_witness :
    runSeries cfg0 remoteC5 fsDirC5 "7" = Except.ok (fsDirC5, [Fetch.seriesMeta "7"]) :=
  (C5_directory_gate cfg0 remoteC5 fsDirC5 "7" "7" ⟨"S", "A", [⟨5, "T"⟩]⟩
      (by decide) (by decide)).1 (by decide) (by decide)

/-- Claim C6: frame conditions of persistence.  For images: an existing
file's content is never changed by the image loop; when every file of a
gallery segment exists no fetch and no write happens at all; when a file is
missing its URL's bytes are fetched (the fetch appears in the log) and
written verbatim.  For prose: the text file is written unconditionally,
overwriting any prior content, with no existence check. -/
theorem C6_persistence_frame (remote : Remote) (restrict : Bool) (savePath : String)
    (ep_idx nEps : Nat) (ep_title : String) (nImgs : Nat) :
    (∀ (u : String) (rest : List String) (img_idx : Nat) (fs : FS) (log : List Fetch),
      fs.fileExists (savePath ++ "/" ++ image_fname restrict ep_idx nEps img_idx nImgs ep_title (ext_of u)) = true →
      saveImages remote restrict savePath ep_idx nEps ep_title nImgs img_idx (u :: rest) fs log
        = saveImages remote restrict savePath ep_idx nEps ep_title nImgs (img_idx + 1) rest fs log) ∧
    (∀ (urls : List String) (img_idx : Nat) (fs : FS) (log : List Fetch) (p : String),
      fs.fileExists p = true →
      ((saveImages remote restrict savePath ep_idx nEps ep_title nImgs img_idx urls fs log).1).readFile p
        = fs.readFile p) ∧
    (∀ (urls : List String) (img_idx : Nat) (fs : FS) (log : List Fetch),
      allExist fs restrict savePath ep_idx nEps ep_title nImgs img_idx urls = true →
      saveImages remote restrict savePath ep_idx nEps ep_title nImgs img_idx urls fs log
        = (fs, log)) ∧
    (∀ (u : String) (rest : List String) (img_idx : Nat) (fs : FS) (log : List Fetch),
      fs.fileExists (savePath ++ "/" ++ image_fname restrict ep_idx nEps img_idx nImgs ep_title (ext_of u)) = false →
      ((saveImages remote restrict savePath ep_idx nEps ep_title nImgs img_idx (u :: rest) fs log).1).readFile
          (savePath ++ "/" ++ image_fname restrict ep_idx nEps img_idx nImgs ep_title (ext_of u))
        = some (remote.imageBytes u) ∧
      Fetch.image u ∈ (saveImages remote restrict savePath ep_idx nEps ep_title nImgs img_idx (u :: rest) fs log).2) ∧
    (∀ (i : Nat) (ep : EpisodeMeta) (fs : FS) (log : List Fetch) (doc : EpisodeDoc),
      remote.episodeOf ep.id = Except.ok doc → parse_comic_images doc = [] →
      ∃ fs' : FS,
        processEpisodes remote restrict savePath nEps i [ep] fs log =
          Except.ok (fs', log ++ [Fetch.episode ep.id]) ∧
        fs'.readFile (savePath ++ "/" ++ prose_fname restrict i nEps ep.title)
          = some (parse_novel_text doc)) := by
  refine ⟨?_,
    saveImages_readFile_pres remote restrict savePath ep_idx nEps ep_title nImgs,
    saveImages_allExist remote restrict savePath ep_idx nEps ep_title nImgs, ?_, ?_⟩
  · intro u rest img_idx fs log h
    rw [saveImages, if_pos h]
  · intro u rest img_idx fs log h
    rw [saveImages, if_neg (by simp [h])]
    have hex : (fs.write (savePath ++ "/" ++ image_fname restrict ep_idx nEps img_idx nImgs ep_title (ext_of u)) (remote.imageBytes u)).fileExists
        (savePath ++ "/" ++ image_fname restrict ep_idx nEps img_idx nImgs ep_title (ext_of u)) = true := by
      rw [fileExists_write]
      simp
    constructor
    · rw [saveImages_readFile_pres remote restrict savePath ep_idx nEps ep_title nImgs
        rest _ _ _ _ hex]
      rw [readFile_write, if_pos rfl]
    · apply saveImages_log_mem
      exact List.mem_append_right log (by simp)
  · intro i ep fs log doc hdoc himgs
    refine ⟨fs.write (savePath ++ "/" ++ prose_fname restrict i nEps ep.title)
      (parse_novel_text doc), ?_, ?_⟩
    · rw [processEpisodes, hdoc]
      have hcl : classify doc = ContentPayload.prose (parse_novel_text doc) := by
        simp [classify, himgs]
      simp only [hcl]
      rw [processEpisodes]
    · rw [readFile_write, if_pos rfl]

/-- Witness for C6: a missing image file is fetched and written. -/
theorem C6_witness :
    ((saveImages remoteC6 false "d" 1 1 "T" 1 1 ["u.png"] fs0 []).1).readFile
        ("d" ++ "/" ++ image_fname false 1 1 1 1 "T" (ext_of "u.png"))
      = some (remoteC6.imageBytes "u.png") ∧
    Fetch.image "u.png" ∈ (saveImages remoteC6 false "d" 1 1 "T" 1 1 ["u.png"] fs0 []).2 :=
  (C6_persistence_frame remoteC6 false "d" 1 1 "T" 1).2.2.2.1 "u.png" [] 1 fs0 [] (by decide)

/-- Counterexample for C9: the claim says a second run without force makes
zero network fetches, including no metadata query.  The code calls
`fetch_series` before the directory gate on every run: the second run's
fetch log is `[seriesMeta "7"]`, not `[]` (the filesystem is indeed left
unchanged). -/
theorem C9_counterexample :
    runSeries cfg0 remoteC9 fs0 "7" =
      Except.ok (fsAfterC9, [Fetch.seriesMeta "7", Fetch.episode 5]) ∧
    runSeries cfg0 remoteC9 fsAfterC9 "7" = Except.ok (fsAfterC9, [Fetch.seriesMeta "7"]) ∧
    ([Fetch.seriesMeta "7"] : List Fetch) ≠ [] :=
  ⟨by decide, by decide, by decide⟩

/-- Claim C9 (amended): re-running a series without force after a completed
run performs exactly one network fetch — the metadata query — and no episode
or image fetch, and leaves the filesystem unchanged (byte-identical). -/
theorem C9_idempotent_second_run (cfg : Config) (remote : Remote) (fs fs' : FS)
    (log : List Fetch) (input sid : String) (series : SeriesData)
    (hforce : cfg.force = false)
    (hsid : get_series_id input = Except.ok sid)
    (hser : remote.seriesOf sid = Except.ok series)
    (h1 : runSeries cfg remote fs input = Except.ok (fs', log)) :
    runSeries cfg remote fs' input = Except.ok (fs', [Fetch.seriesMeta sid]) := by
  rw [runSeries, hsid] at h1 ⊢
  simp only [hser] at h1 ⊢
  have hdirs : fs'.dirExists (savePathOf cfg series.title sid) = true := by
    by_cases hd : fs.dirExists (savePathOf cfg series.title sid) = false
    · simp only [hd] at h1
      simp at h1
      have := processEpisodes_dirs remote cfg.restrict_characters
        (savePathOf cfg series.title sid) series.episodes.length
        series.episodes 1 (fs.mkdir (savePathOf cfg series.title sid)) fs'
        [Fetch.seriesMeta sid] log h1
      unfold FS.dirExists
      rw [this]
      simp [FS.mkdir]
    · simp only [hd] at h1
      simp [hforce] at h1
      rw [← h1.1]
      simpa using hd
  simp [hdirs, hforce]

/-- Witness for C9 (amended) at a concrete completed first run. -/
theorem C9_witness :
    runSeries cfg0 remoteC9 fsAfterC9 "7" = Except.ok (fsAfterC9, [Fetch.seriesMeta "7"]) :=
  C9_idempotent_second_run cfg0 remoteC9 fs0 fsAfterC9
    [Fetch.seriesMeta "7", Fetch.episode 5] "7" "7" ⟨"S", "A", [⟨5, "T"⟩]⟩
    (by decide) (by decide) (by decide) (by decide)

/-- Counterexample for C1: the claim says a per-episode content-fetch
failure halts only that series' episode loop and every later series still
runs.  The exception is uncaught by the orchestrator's loop, so the whole
run aborts: with series `"1"` (whose episode fetch fails) followed by
series `"2"`, the run ends in the uncaught error and series `"2"` is never
processed, although `"2"` alone processes fine. -/
theorem C1_counterexample :
    runAll cfg0 remoteC1 fs0 ["1", "2"] = Except.error "EpisodeFetchError" ∧
    runAll cfg0 remoteC1 fs0 ["2"] =
      Except.ok (⟨["o/B [2]"], [("o/B [2]/1 - E2.txt", "hello")]⟩,
        [Fetch.seriesMeta "2", Fetch.episode 21]) :=
  ⟨by decide, by decide⟩

/-- Claim C1 (amended): series are processed strictly sequentially; a
metadata-fetch failure on one series is caught and later series run
unaffected, but a per-episode content-fetch failure is an uncaught
exception that aborts the entire run, so later series in the input list are
not processed at all. -/
theorem C1_sequential_amended (cfg : Config) (remote : Remote) (fs : FS)
    (input sid e : String) (rest : List String)
    (hsid : get_series_id input = Except.ok sid) :
    (remote.seriesOf sid = Except.error e →
      runAll cfg remote fs (input :: rest) =
        (runAll cfg remote fs rest).map (fun p => (p.1, Fetch.seriesMeta sid :: p.2))) ∧
    (runSeries cfg remote fs input = Except.error e →
      runAll cfg remote fs (input :: rest) = Except.error e) := by
  constructor
  · intro hser
    have hrs : runSeries cfg remote fs input = Except.ok (fs, [Fetch.seriesMeta sid]) := by
      rw [runSeries, hsid]
      simp only [hser]
    cases h : runAll cfg remote fs rest with
    | error e' =>
      rw [runAll, hrs]
      simp only [h, Except.map]
    | ok p =>
      cases p with
      | mk a b =>
        rw [runAll, hrs]
        simp only [h, Except.map]
        simp
  · intro hfail
    rw [runAll, hfail]

/-- Witness for C1 (amended): a caught metadata failure on `"9"` leaves the
processing of the following series `"2"` unaffected. -/
theorem C1_witness :
    runAll cfg0 remoteC1 fs0 ["9", "2"] =
      (runAll cfg0 remoteC1 fs0 ["2"]).map
        (fun p => (p.1, Fetch.seriesMeta "9" :: p.2)) :=
  (C1_sequential_amended cfg0 remoteC1 fs0 "9" "9" "FetchError" ["2"] (by decide)).1
    (by decide)

end TapasDl
